import Mathlib

/-
Verification of the mini-swe-agent `DefaultAgent` (src/minisweagent/agents/default.py).

The Python code is embedded shallowly: pure string helpers are modelled after the
Python string/stdlib primitives they call (str.strip, str.lstrip, str.splitlines,
str.split, fnmatch.fnmatch, dict union and keyword-argument assembly), and the
stateful agent methods become explicit state-passing functions.  External
dependencies injected into the agent (the Model and Environment protocol objects,
the regex engine used by `re.findall`, the Jinja2 rendering engine) are modelled
as parameters of a `World` structure, respectively as a small template language
with strict-undefined semantics.
-/

set_option autoImplicit false
set_option maxRecDepth 10000

namespace MiniSwe

/-- Characters Python treats as whitespace in `str.strip` / `str.split`. -/
def pyIsSpace (c : Char) : Bool :=
  [0x09, 0x0a, 0x0b, 0x0c, 0x0d, 0x1c, 0x1d, 0x1e, 0x1f, 0x20, 0x85, 0xa0,
   0x1680, 0x2000, 0x2001, 0x2002, 0x2003, 0x2004, 0x2005, 0x2006, 0x2007,
   0x2008, 0x2009, 0x200a, 0x2028, 0x2029, 0x202f, 0x205f, 0x3000].contains c.toNat

/-- Characters Python treats as line boundaries in `str.splitlines`. -/
def pyIsLineBreak (c : Char) : Bool :=
  [0x0a, 0x0b, 0x0c, 0x0d, 0x1c, 0x1d, 0x1e, 0x85, 0x2028, 0x2029].contains c.toNat

/-- Worker for `str.splitlines`: accumulates the current line (reversed) and
splits at Python line boundaries, treating CRLF as a single boundary.
When `keep` is true the line terminators are kept (`keepends=True`). -/
def splitlinesGo (keep : Bool) (cur : List Char) : List Char → List (List Char)
  | [] => if cur.isEmpty then [] else [cur.reverse]
  | '\r' :: '\n' :: rest =>
      (cur.reverse ++ if keep then ['\r', '\n'] else []) :: splitlinesGo keep [] rest
  | c :: rest =>
      if pyIsLineBreak c then
        (cur.reverse ++ if keep then [c] else []) :: splitlinesGo keep [] rest
      else splitlinesGo keep (c :: cur) rest

/-- Python `str.splitlines(keepends=True)`. -/
def pySplitlinesKeep (s : String) : List String :=
  (splitlinesGo true [] s.toList).map String.mk

/-- Python `str.splitlines()`. -/
def pySplitlines (s : String) : List String :=
  (splitlinesGo false [] s.toList).map String.mk

/-- Python `str.lstrip(chars)`: removes leading characters belonging to the set. -/
def pyLstripChars (s : String) (cs : List Char) : String :=
  String.mk (s.toList.dropWhile (fun c => cs.contains c))

/-- Python `str.lstrip()` (no argument): removes leading whitespace. -/
def pyLstripWs (s : String) : String :=
  String.mk (s.toList.dropWhile pyIsSpace)

/-- Python `str.strip()` (no argument): removes leading and trailing whitespace. -/
def pyStrip (s : String) : String :=
  String.mk (((s.toList.dropWhile pyIsSpace).reverse.dropWhile pyIsSpace).reverse)

/-- Worker for `str.split()` with no separator: splits on whitespace runs,
discarding empty fields. -/
def splitWsGo (cur : List Char) : List Char → List (List Char)
  | [] => if cur.isEmpty then [] else [cur.reverse]
  | c :: rest =>
      if pyIsSpace c then
        if cur.isEmpty then splitWsGo [] rest else cur.reverse :: splitWsGo [] rest
      else splitWsGo (c :: cur) rest

/-- Python `str.split()` with no separator. -/
def pySplitWs (s : String) : List String :=
  (splitWsGo [] s.toList).map String.mk

/-- Python `str.startswith`. -/
def pyStartswith (s pre : String) : Bool :=
  pre.toList.isPrefixOf s.toList

/-- Python `str.endswith`. -/
def pyEndswith (s suf : String) : Bool :=
  suf.toList.isSuffixOf s.toList

/-- Token of a translated `fnmatch` glob pattern. -/
inductive GlobTok where
  | lit (c : Char)
  | anyChar
  | many
  | charClass (content : List Char)
deriving DecidableEq

/-- Scans a bracket character class after an opening bracket, following
`fnmatch.translate`: a leading bang negates, a bracket right after the
opening (or the bang) is a literal member, and the class runs to the next
closing bracket; with no closing bracket the opening one is literal.
Returns the class content and how many pattern characters were consumed. -/
def scanClass (ps : List Char) : Option (List Char × Nat) :=
  let j1 : Nat := if ps.head? = some '!' then 1 else 0
  let j : Nat := if (ps.drop j1).head? = some ']' then j1 + 1 else j1
  match (ps.drop j).findIdx? (fun c => c == ']') with
  | none => none
  | some i => some (ps.take (j + i), j + i + 1)

/-- Fuelled worker translating an `fnmatch` glob pattern into tokens; every
step consumes at least one pattern character, so fuel equal to the pattern
length is always sufficient. -/
def parseGlobF : Nat → List Char → List GlobTok
  | 0, _ => []
  | _ + 1, [] => []
  | fuel + 1, '*' :: ps => .many :: parseGlobF fuel ps
  | fuel + 1, '?' :: ps => .anyChar :: parseGlobF fuel ps
  | fuel + 1, '[' :: ps =>
      (match scanClass ps with
       | none => .lit '[' :: parseGlobF fuel ps
       | some (content, n) => .charClass content :: parseGlobF fuel (ps.drop n))
  | fuel + 1, c :: ps => .lit c :: parseGlobF fuel ps

/-- Translates an `fnmatch` glob pattern into tokens. -/
def parseGlob (l : List Char) : List GlobTok :=
  parseGlobF l.length l

/-- Membership of a character in a bracket class body, with dash ranges. -/
def classMemGo (c : Char) : List Char → Bool
  | a :: '-' :: b :: rest => (decide (a ≤ c) && decide (c ≤ b)) || classMemGo c rest
  | a :: rest => (a == c) || classMemGo c rest
  | [] => false

/-- Bracket class match, honouring a leading bang as negation. -/
def classMatch (content : List Char) (c : Char) : Bool :=
  match content with
  | '!' :: body => !(classMemGo c body)
  | body => classMemGo c body

/-- Fuelled worker matching translated glob tokens against a string, like the
regex produced by `fnmatch.translate` (a star crosses path separators and
newlines).  Every step shortens the pattern or the string, so fuel equal to
their combined length is always sufficient. -/
def globMatchF : Nat → List GlobTok → List Char → Bool
  | 0, _, _ => false
  | _ + 1, [], s => s.isEmpty
  | fuel + 1, .many :: ps, s =>
      globMatchF fuel ps s ||
        (match s with
         | [] => false
         | _ :: s2 => globMatchF fuel (.many :: ps) s2)
  | fuel + 1, .anyChar :: ps, s =>
      (match s with
       | [] => false
       | _ :: s2 => globMatchF fuel ps s2)
  | fuel + 1, .charClass content :: ps, s =>
      (match s with
       | [] => false
       | c :: s2 => classMatch content c && globMatchF fuel ps s2)
  | fuel + 1, .lit a :: ps, s =>
      (match s with
       | [] => false
       | c :: s2 => (a == c) && globMatchF fuel ps s2)

/-- Matches a translated glob pattern against a string. -/
def globMatch (p : List GlobTok) (s : List Char) : Bool :=
  globMatchF (p.length + s.length + 1) p s

/-- Python `fnmatch.fnmatch(name, pat)` on a case-sensitive filesystem. -/
def fnmatch (name : String) (pat : String) : Bool :=
  globMatch (parseGlob pat.toList) name.toList

/-- A Python `dict[str, str]`, as an association list looked up front-first. -/
abbrev Dict := List (String × String)

/-- Dictionary lookup (`d[k]` / `d.get(k)`). -/
def dget : Dict → String → Option String
  | [], _ => none
  | (k1, v) :: rest, k => if k1 == k then some v else dget rest k

/-- Python `k in d`. -/
def hasKey (d : Dict) (k : String) : Bool :=
  (dget d k).isSome

/-- Python `d.get(k, dflt)`. -/
def dgetD (d : Dict) (k dflt : String) : String :=
  (dget d k).getD dflt

/-- Python dict union `a | b`: on shared keys the right operand wins. -/
def dunion (a b : Dict) : Dict :=
  b ++ a.filter (fun p => !(hasKey b p.1))

/-- Left-biased choice on optional lookup results. -/
def oor (x y : Option String) : Option String :=
  match x with
  | some v => some v
  | none => y

/-- Python keyword-argument assembly `f(**acc, **d)`: entries of `d` are added
one by one, and a key already present raises `TypeError: got multiple values
for keyword argument` rather than overriding. -/
inductive RenderErr where
  | missingVar (name : String)
  | duplicateKwarg (name : String)
deriving DecidableEq

/-- Adds the entries of `d` to `acc`, failing on a duplicate key exactly as
Python's `f(**acc, **d)` call assembly does. -/
def kwargsAdd : Dict → Dict → Except RenderErr Dict
  | acc, [] => .ok acc
  | acc, (k, v) :: rest =>
      if hasKey acc k then .error (.duplicateKwarg k) else kwargsAdd (acc ++ [(k, v)]) rest

/-- A Jinja2 template, modelled as interleaved literal text and variable
references. -/
inductive Tpart where
  | lit (s : String)
  | var (name : String)
deriving DecidableEq

abbrev Tmpl := List Tpart

/-- Jinja2 rendering with `StrictUndefined`: a referenced variable absent from
the variable map raises an undefined-variable error (carried as its name). -/
def render : Tmpl → Dict → Except String String
  | [], _ => .ok ""
  | .lit s :: rest, v => (render rest v).map (fun r => s ++ r)
  | .var n :: rest, v =>
      match dget v n with
      | none => .error n
      | some val => (render rest v).map (fun r => val ++ r)

/-- The source text of a template (for `config.model_dump()` values). -/
def tmplStr : Tmpl → String
  | [] => ""
  | .lit s :: rest => s ++ tmplStr rest
  | .var n :: rest => "\x7b\x7b" ++ n ++ "\x7d\x7d" ++ tmplStr rest

/-- Python `repr` of a string (quoting only). -/
def pyReprStr (s : String) : String :=
  "'" ++ s ++ "'"

/-- Python `str` of a list of strings. -/
def pyReprStrList (l : List String) : String :=
  "[" ++ String.intercalate ", " (l.map pyReprStr) ++ "]"

/-- Python `str` of a `dict[str, str]`. -/
def pyDictRepr (d : Dict) : String :=
  "\x7b" ++ String.intercalate ", " (d.map (fun p => pyReprStr p.1 ++ ": " ++ pyReprStr p.2)) ++ "\x7d"

/-- `AgentConfig` from the source: the pydantic configuration model. The four
template fields carry templates directly; numeric fields are Python ints and
floats, modelled as `Int` and `ℚ`. -/
structure AgentConfig where
  system_template : Tmpl
  instance_template : Tmpl
  timeout_template : Tmpl
  format_error_template : Tmpl
  action_observation_template : Tmpl
  action_regex : String := "```bash\\s*\\n(.*?)\\n```"
  step_limit : Int := 0
  cost_limit : ℚ := 3
  max_history_messages : Int := 0
  validate_source_changes : Bool := false
  source_path_patterns : List String := ["src/**/*.py", "*.py"]
deriving DecidableEq

/-- `self.config.model_dump()`: the flattened configuration as template
variables (non-string values stringified the way `str` would show them). -/
def configDump (c : AgentConfig) : Dict :=
  [("system_template", tmplStr c.system_template),
   ("instance_template", tmplStr c.instance_template),
   ("timeout_template", tmplStr c.timeout_template),
   ("format_error_template", tmplStr c.format_error_template),
   ("action_observation_template", tmplStr c.action_observation_template),
   ("action_regex", c.action_regex),
   ("step_limit", toString c.step_limit),
   ("cost_limit", toString c.cost_limit),
   ("max_history_messages", toString c.max_history_messages),
   ("validate_source_changes", if c.validate_source_changes then "True" else "False"),
   ("source_path_patterns", pyReprStrList c.source_path_patterns)]

/-- An entry of `self.messages`. -/
structure Message where
  role : String
  content : String
deriving DecidableEq

/-- A model response dict (`{"content": ...}`). -/
structure Response where
  content : String
deriving DecidableEq

/-- The observable counters of the Model protocol object. -/
structure ModelState where
  n_calls : Nat
  cost : ℚ
deriving DecidableEq

/-- The dict returned by `parse_action`: `{"action": ..., **response}`. -/
structure ParsedAction where
  action : String
  response : Response
deriving DecidableEq

/-- The payload of a `TimeoutError` / `subprocess.TimeoutExpired`: its decoded
`output` attribute if any. -/
structure TimeoutErrInfo where
  output : Option String

/-- The injected external dependencies of the agent: the Environment and Model
protocol objects and the regex engine behind `re.findall` applied to the
configured `action_regex`. -/
structure World where
  envTemplateVars : Dict
  modelTemplateVars : Dict
  modelQuery : List Message → ModelState → Response × ModelState
  envExecute : String → Except TimeoutErrInfo Dict
  findall : String → List String

/-- The mutable state of a `DefaultAgent` instance. -/
structure AgentState where
  config : AgentConfig
  messages : List Message
  extra_template_vars : Dict
  model : ModelState

/-- The exceptions raised by the agent's methods. `renderError` stands for an
exception escaping a Jinja render, which is neither a `NonTerminatingException`
nor a `TerminatingException` and so propagates out of `run`. -/
inductive AgentExc where
  | formatError (msg : String)
  | executionTimeout (msg : String)
  | submitted (msg : String)
  | limitsExceeded
  | renderError (e : RenderErr)
deriving DecidableEq

/-- `template_vars` of `render_template`:
`self.config.model_dump() | self.env.get_template_vars() | self.model.get_template_vars()`. -/
def templateVars (cfg : AgentConfig) (w : World) : Dict :=
  dunion (dunion (configDump cfg) w.envTemplateVars) w.modelTemplateVars

/-- `DefaultAgent.render_template`:
`Template(template, undefined=StrictUndefined).render(**kwargs, **template_vars, **self.extra_template_vars)`. -/
def render_template (cfg : AgentConfig) (w : World) (extra : Dict) (tmpl : Tmpl) (kwargs : Dict) :
    Except RenderErr String :=
  match kwargsAdd [] kwargs with
  | .error e => .error e
  | .ok m1 =>
      match kwargsAdd m1 (templateVars cfg w) with
      | .error e => .error e
      | .ok m2 =>
          match kwargsAdd m2 extra with
          | .error e => .error e
          | .ok m3 =>
              match render tmpl m3 with
              | .ok s => .ok s
              | .error n => .error (.missingVar n)

/-- `DefaultAgent.add_message`: appends a message to the log. -/
def addMessage (s : AgentState) (role content : String) : AgentState :=
  { s with messages := s.messages ++ [{ role := role, content := content }] }

/-- The truncated message view built inside `DefaultAgent.query`:
`msgs[:2] + msgs[2:][-max_history_messages:]` when
`max_history_messages > 0 and len(msgs) > 2`, the full log otherwise. -/
def viewForModel (cfg : AgentConfig) (msgs : List Message) : List Message :=
  if 0 < cfg.max_history_messages ∧ 2 < msgs.length then
    msgs.take 2 ++ (msgs.drop 2).drop ((msgs.drop 2).length - cfg.max_history_messages.toNat)
  else msgs

/-- `DefaultAgent.query`: raises `LimitsExceeded` before calling the model when
`0 < step_limit <= n_calls or 0 < cost_limit <= cost`; otherwise queries the
model on the (possibly truncated) view and appends the assistant response. -/
def query (w : World) (s : AgentState) : Except AgentExc Response × AgentState :=
  if (0 < s.config.step_limit ∧ s.config.step_limit ≤ (s.model.n_calls : Int)) ∨
     (0 < s.config.cost_limit ∧ s.config.cost_limit ≤ s.model.cost) then
    (.error .limitsExceeded, s)
  else
    let qr := w.modelQuery (viewForModel s.config s.messages) s.model
    (.ok qr.1,
     { s with
       model := qr.2,
       messages := s.messages ++ [{ role := "assistant", content := qr.1.content }] })

/-- `DefaultAgent.parse_action`: `re.findall(action_regex, content, re.DOTALL)`
must yield exactly one match, which is stripped; otherwise a `FormatError`
carrying the rendered `format_error_template` (with `actions=<matches>`). -/
def parse_action (w : World) (cfg : AgentConfig) (extra : Dict) (resp : Response) :
    Except AgentExc ParsedAction :=
  match w.findall resp.content with
  | [a] => .ok { action := pyStrip a, response := resp }
  | actions =>
      match render_template cfg w extra cfg.format_error_template
          [("actions", pyReprStrList actions)] with
      | .ok msg => .error (.formatError msg)
      | .error e => .error (.renderError e)

/-- The two sentinel first lines recognised by `has_finished`. -/
def sentinels : List String :=
  ["MINI_SWE_AGENT_FINAL_OUTPUT", "COMPLETE_TASK_AND_SUBMIT_FINAL_OUTPUT"]

/-- `parts[...].lstrip("a/").lstrip("b/")` from `_has_source_file_changes`. -/
def stripAB (s : String) : String :=
  pyLstripChars (pyLstripChars s ['a', '/']) ['b', '/']

/-- The `changed_files` list built by `_has_source_file_changes`: candidate
paths from `diff --git` header lines (third field) and from lines starting
with plus-plus-plus or minus-minus-minus (second field, unless it equals
"/dev/null" after the lstrips). -/
def collectPaths (git_diff_output : String) : List String :=
  (pySplitlines git_diff_output).flatMap (fun line =>
    if pyStartswith line "diff --git" then
      (let parts := pySplitWs line
       if 3 ≤ parts.length then [stripAB (parts.getD 2 "")] else [])
    else if pyStartswith line "+++" || pyStartswith line "---" then
      (let parts := pySplitWs line
       if 2 ≤ parts.length then
         (let filepath := stripAB (parts.getD 1 "")
          if filepath ≠ "/dev/null" then [filepath] else [])
       else [])
    else [])

/-- `DefaultAgent._has_source_file_changes`. -/
def _has_source_file_changes (cfg : AgentConfig) (git_diff_output : String) : Bool :=
  (collectPaths git_diff_output).any (fun filepath =>
    cfg.source_path_patterns.any (fun pattern =>
      fnmatch filepath pattern || pyEndswith filepath ".py"))

/-- The literal rejection message raised by `has_finished` when validation
finds no source change. -/
def rejectionMsg (cfg : AgentConfig) : String :=
  "Submission rejected: No source files were modified. You must modify at least one source file (matching patterns: "
    ++ String.intercalate ", " cfg.source_path_patterns
    ++ ") for the submission to be valid."

/-- `DefaultAgent.has_finished`: detects a sentinel first line of the
whitespace-lstripped output and raises `Submitted` (or, with validation
enabled and no source change, `FormatError`). -/
def has_finished (cfg : AgentConfig) (output : Dict) : Except AgentExc Unit :=
  match pySplitlinesKeep (pyLstripWs (dgetD output "output" "")) with
  | [] => .ok ()
  | first :: rest =>
      if sentinels.contains (pyStrip first) then
        let submission := String.join rest
        if cfg.validate_source_changes then
          if !(_has_source_file_changes cfg submission) then
            .error (.formatError (rejectionMsg cfg))
          else .error (.submitted submission)
        else .error (.submitted submission)
      else .ok ()

/-- `DefaultAgent.execute_action`: runs the action in the environment,
converting a timeout into `ExecutionTimeoutError`, then checks completion and
returns `output | {"action": action}`. -/
def execute_action (w : World) (cfg : AgentConfig) (extra : Dict) (act : ParsedAction) :
    Except AgentExc Dict :=
  match w.envExecute act.action with
  | .error t =>
      (let output := t.output.getD ""
       match render_template cfg w extra cfg.timeout_template
           [("action", act.action), ("output", output)] with
       | .ok msg => .error (.executionTimeout msg)
       | .error e => .error (.renderError e))
  | .ok output =>
      match has_finished cfg output with
      | .error e => .error e
      | .ok _ => .ok (dunion output [("action", act.action)])

/-- `DefaultAgent.get_observation`: parse, execute, render the observation
template and append it as a user message.  The returned state reflects the
partial effects present when an exception escapes. -/
def get_observation (w : World) (s : AgentState) (resp : Response) :
    Except AgentExc Dict × AgentState :=
  match parse_action w s.config s.extra_template_vars resp with
  | .error e => (.error e, s)
  | .ok act =>
      match execute_action w s.config s.extra_template_vars act with
      | .error e => (.error e, s)
      | .ok output =>
          match render_template s.config w s.extra_template_vars
              s.config.action_observation_template [("output", pyDictRepr output)] with
          | .error e => (.error (.renderError e), s)
          | .ok observation => (.ok output, addMessage s "user" observation)

/-- `DefaultAgent.step`: `get_observation(query())`. -/
def step (w : World) (s : AgentState) : Except AgentExc Dict × AgentState :=
  match query w s with
  | (.error e, s1) => (.error e, s1)
  | (.ok resp, s1) => get_observation w s1 resp

/-- Result of one iteration of the `while True` loop in `run`. -/
inductive LoopRes where
  | next (s : AgentState)
  | done (status msg : String) (s : AgentState)
  | crash (e : RenderErr) (s : AgentState)

/-- One iteration of `run`'s loop with its try/except: a
`NonTerminatingException` is appended as a user message and the loop
continues; a `TerminatingException` is appended and `(type name, str)` is
returned; anything else propagates. -/
def loopStep (w : World) (s : AgentState) : LoopRes :=
  match step w s with
  | (.ok _, s1) => .next s1
  | (.error (.formatError m), s1) => .next (addMessage s1 "user" m)
  | (.error (.executionTimeout m), s1) => .next (addMessage s1 "user" m)
  | (.error (.submitted m), s1) => .done "Submitted" m (addMessage s1 "user" m)
  | (.error .limitsExceeded, s1) => .done "LimitsExceeded" "" (addMessage s1 "user" "")
  | (.error (.renderError e), s1) => .crash e s1

/-- The agent state carried by a loop iteration result. -/
def stateOfLoopRes : LoopRes → AgentState
  | .next s => s
  | .done _ _ s => s
  | .crash _ s => s

/-- Result of running the loop with bounded fuel. -/
inductive RunRes where
  | finished (status msg : String) (s : AgentState)
  | fuelOut (s : AgentState)
  | crashed (e : RenderErr) (s : AgentState)

/-- `run`'s `while True` loop, fuelled. -/
def runLoop (w : World) : Nat → AgentState → RunRes
  | 0, s => .fuelOut s
  | n + 1, s =>
      match loopStep w s with
      | .next s1 => runLoop w n s1
      | .done st m s1 => .finished st m s1
      | .crash e s1 => .crashed e s1

/-- The agent state carried by a run result. -/
def stateOfRunRes : RunRes → AgentState
  | .finished _ _ s => s
  | .fuelOut s => s
  | .crashed _ s => s

/-- The head of `DefaultAgent.run`:
`self.extra_template_vars |= {"task": task, **kwargs}`, reset of
`self.messages`, and the two initial prompt messages. -/
def runInit (w : World) (s : AgentState) (task : String) (kwargs : Dict) :
    Except RenderErr AgentState :=
  let s1 := { s with
    extra_template_vars := dunion s.extra_template_vars (dunion [("task", task)] kwargs),
    messages := [] }
  match render_template s1.config w s1.extra_template_vars s1.config.system_template [] with
  | .error e => .error e
  | .ok sysMsg =>
      let s2 := addMessage s1 "system" sysMsg
      match render_template s2.config w s2.extra_template_vars s2.config.instance_template [] with
      | .error e => .error e
      | .ok instMsg => .ok (addMessage s2 "user" instMsg)

/-- `DefaultAgent.run`: initialisation followed by the fuelled loop. -/
def run (w : World) (fuel : Nat) (s : AgentState) (task : String) (kwargs : Dict) :
    Except RenderErr RunRes :=
  (runInit w s task kwargs).map (runLoop w fuel)

/-! Concrete configurations, worlds and states used to instantiate the
theorems below on executable inputs. -/

/-- A minimal configuration with empty templates and default limits. -/
def cfg0 : AgentConfig :=
  { system_template := [], instance_template := [], timeout_template := [],
    format_error_template := [], action_observation_template := [] }

/-- A minimal world: no extra template variables, a model that always answers
"r" without touching its counters, an environment that returns an empty output
dict, and a regex engine that finds no action. -/
def wTest : World :=
  { envTemplateVars := [], modelTemplateVars := [],
    modelQuery := fun _ ms => ({ content := "r" }, ms),
    envExecute := fun _ => .ok [],
    findall := fun _ => [] }

/-- A fixed model response. -/
def respX : Response := { content := "x" }

/-- A world whose regex engine finds exactly one action match. -/
def wOne : World := { wTest with findall := fun _ => ["  echo hi  "] }

/-- A configuration with a nonempty format-error template. -/
def cfgFmt : AgentConfig :=
  { cfg0 with format_error_template := [.lit "bad ", .var "actions"] }

/-- A fresh agent state over `cfgFmt`. -/
def sZero : AgentState :=
  { config := cfgFmt, messages := [], extra_template_vars := [],
    model := { n_calls := 0, cost := 0 } }

/-- `sZero` after its assistant response has been appended by `query`. -/
def s1Zero : AgentState :=
  { config := cfgFmt, messages := [{ role := "assistant", content := "r" }],
    extra_template_vars := [], model := { n_calls := 0, cost := 0 } }

/-- State at the 6th query attempt under a step limit of 5. -/
def s5 : AgentState :=
  { config := { cfg0 with step_limit := 5, cost_limit := 0 }, messages := [],
    extra_template_vars := [], model := { n_calls := 5, cost := 0 } }

/-- State at the 5th query attempt under a step limit of 5. -/
def s4 : AgentState :=
  { config := { cfg0 with step_limit := 5, cost_limit := 0 }, messages := [],
    extra_template_vars := [], model := { n_calls := 4, cost := 0 } }

/-- State whose accumulated cost has just reached the cost limit of 3. -/
def sCost : AgentState :=
  { config := cfg0, messages := [], extra_template_vars := [],
    model := { n_calls := 0, cost := 3 } }

/-- State with a negative (nonzero) step limit. -/
def sNeg : AgentState :=
  { config := { cfg0 with step_limit := -1, cost_limit := 0 }, messages := [],
    extra_template_vars := [], model := { n_calls := 0, cost := 0 } }

/-- Configuration with history truncation size 2. -/
def cfgN2 : AgentConfig := { cfg0 with max_history_messages := 2 }

/-- A 7-entry message log. -/
def msgs7 : List Message :=
  [{ role := "system", content := "s" }, { role := "user", content := "u" },
   { role := "assistant", content := "a1" }, { role := "user", content := "u1" },
   { role := "assistant", content := "a2" }, { role := "user", content := "u2" },
   { role := "assistant", content := "a3" }]

/-- Configuration with submission validation enabled (default patterns). -/
def cfgV : AgentConfig := { cfg0 with validate_source_changes := true }

/-- Sandbox output submitting a source change. -/
def outAcc : Dict :=
  [("output", "MINI_SWE_AGENT_FINAL_OUTPUT\ndiff --git a/src/pkg/mod.py b/src/pkg/mod.py\n")]

/-- Sandbox output submitting only a documentation change. -/
def outRej : Dict :=
  [("output", "MINI_SWE_AGENT_FINAL_OUTPUT\ndiff --git a/README.md b/README.md\n")]

/-- Validation enabled with an empty source-path pattern list. -/
def cfgEmptyPat : AgentConfig :=
  { cfg0 with validate_source_changes := true, source_path_patterns := [] }

/-- Sandbox output submitting a Python-file change. -/
def outEmptyPat : Dict :=
  [("output", "MINI_SWE_AGENT_FINAL_OUTPUT\ndiff --git a/x.py b/x.py\n")]

/-- Sandbox output with the sentinel and a one-line payload. -/
def out6 : Dict := [("output", "MINI_SWE_AGENT_FINAL_OUTPUT\nhello world\n")]

/-- Sandbox output with no sentinel. -/
def outNone : Dict := [("output", "all good\n")]

/-- A world whose environment supplies a `task` template variable. -/
def wEnvTask : World := { wTest with envTemplateVars := [("task", "X")] }

/-- Run-level extras also supplying `task`. -/
def extraTask : Dict := [("task", "Y")]

/-- Configuration with literal system and instance templates. -/
def cfgLit : AgentConfig :=
  { cfg0 with system_template := [.lit "SYS"], instance_template := [.lit "INST"] }

/-- A fresh agent over `cfgLit`. -/
def baseState : AgentState :=
  { config := cfgLit, messages := [], extra_template_vars := [],
    model := { n_calls := 0, cost := 0 } }

/-- The state produced by `runInit wTest baseState "t" []`. -/
def c9Init : AgentState :=
  { config := cfgLit,
    messages := [{ role := "system", content := "SYS" }, { role := "user", content := "INST" }],
    extra_template_vars := [("task", "t")],
    model := { n_calls := 0, cost := 0 } }

/-- An agent carrying extras seeded by an earlier `run` call. -/
def baseState2 : AgentState :=
  { baseState with extra_template_vars := [("keep", "old"), ("task", "t0")] }

/-- The state produced by `runInit wTest baseState2 "t1" [("other", "x")]`. -/
def c10State : AgentState :=
  { config := cfgLit,
    messages := [{ role := "system", content := "SYS" }, { role := "user", content := "INST" }],
    extra_template_vars := [("other", "x"), ("task", "t1"), ("keep", "old")],
    model := { n_calls := 0, cost := 0 } }

/-! General lemmas about dictionary lookup, Python keyword assembly and the
strict template renderer. -/

theorem dget_append (a b : Dict) (k : String) :
    dget (a ++ b) k = oor (dget a k) (dget b k) := by
  induction a with
  | nil => simp [dget, oor]
  | cons p rest ih =>
    obtain ⟨k1, v1⟩ := p
    by_cases h : (k1 == k) <;> simp [dget, h, oor, ih]

theorem hasKey_append (a b : Dict) (k : String) :
    hasKey (a ++ b) k = (hasKey a k || hasKey b k) := by
  unfold hasKey
  rw [dget_append]
  cases h : dget a k <;> simp [oor, h]

theorem dget_dunion (a b : Dict) (k : String) :
    dget (dunion a b) k = oor (dget b k) (dget a k) := by
  unfold dunion
  rw [dget_append]
  cases h : dget b k with
  | some v => simp [oor]
  | none =>
    simp only [oor]
    induction a with
    | nil => simp [dget]
    | cons p rest ih =>
      obtain ⟨k1, v1⟩ := p
      by_cases hk : (k1 == k)
      · have hk1 : k1 = k := eq_of_beq hk
        subst hk1
        have : hasKey b k1 = false := by simp [hasKey, h]
        simp [List.filter, this, dget]
      · cases hq : !(hasKey b k1) <;> simp [List.filter, hq, dget, hk, ih]

theorem hasKey_of_dget_none (d : Dict) (k : String) (h : dget d k = none) :
    hasKey d k = false := by
  simp [hasKey, h]

theorem kwargsAdd_ok_hasKey :
    ∀ (d acc r : Dict), kwargsAdd acc d = .ok r →
      ∀ k, hasKey r k = (hasKey acc k || hasKey d k) := by
  intro d
  induction d with
  | nil =>
    intro acc r h k
    unfold kwargsAdd at h
    injection h with h
    subst h
    simp [hasKey, dget]
  | cons p rest ih =>
    intro acc r h k
    obtain ⟨k1, v1⟩ := p
    unfold kwargsAdd at h
    split at h
    · exact absurd h (by simp)
    · have hr := ih _ _ h k
      rw [hr, hasKey_append]
      by_cases hk : (k1 == k) <;> simp [hasKey, dget, hk, Bool.or_assoc]

theorem kwargsAdd_error_shape :
    ∀ (d acc : Dict) (e : RenderErr), kwargsAdd acc d = .error e →
      ∃ k, e = .duplicateKwarg k := by
  intro d
  induction d with
  | nil =>
    intro acc e h
    exact absurd h (by simp [kwargsAdd])
  | cons p rest ih =>
    intro acc e h
    obtain ⟨k1, v1⟩ := p
    unfold kwargsAdd at h
    split at h
    · refine ⟨k1, ?_⟩
      injection h with h
      exact h.symm
    · exact ih _ _ h

theorem kwargsAdd_overlap :
    ∀ (d acc : Dict) (k : String), hasKey acc k = true → hasKey d k = true →
      ∃ e, kwargsAdd acc d = .error e := by
  intro d
  induction d with
  | nil =>
    intro acc k _ h2
    simp [hasKey, dget] at h2
  | cons p rest ih =>
    intro acc k h1 h2
    obtain ⟨k1, v1⟩ := p
    by_cases hacc : hasKey acc k1
    · exact ⟨.duplicateKwarg k1, by simp [kwargsAdd, hacc]⟩
    · by_cases hkk : (k1 == k)
      · have : k1 = k := eq_of_beq hkk
        subst this
        exact absurd h1 (by simp [hacc])
      · have h2' : hasKey rest k = true := by
          simpa [hasKey, dget, hkk] using h2
        have h1' : hasKey (acc ++ [(k1, v1)]) k = true := by
          rw [hasKey_append, h1]
          simp
        obtain ⟨e, he⟩ := ih _ k h1' h2'
        refine ⟨e, ?_⟩
        simpa [kwargsAdd, hacc] using he

/-! Frame lemmas: every agent operation only appends to the message log and
leaves the extra template variables and the configuration untouched. -/

theorem query_frame (w : World) (s : AgentState) :
    ∃ t, (query w s).2.messages = s.messages ++ t ∧
      (query w s).2.extra_template_vars = s.extra_template_vars ∧
      (query w s).2.config = s.config := by
  unfold query
  split
  · exact ⟨[], by simp, rfl, rfl⟩
  · refine ⟨_, rfl, rfl, rfl⟩

theorem get_observation_frame (w : World) (s : AgentState) (resp : Response) :
    ∃ t, (get_observation w s resp).2.messages = s.messages ++ t ∧
      (get_observation w s resp).2.extra_template_vars = s.extra_template_vars ∧
      (get_observation w s resp).2.config = s.config := by
  unfold get_observation
  cases hpa : parse_action w s.config s.extra_template_vars resp with
  | error e => exact ⟨[], by simp [hpa]⟩
  | ok act =>
    cases hex : execute_action w s.config s.extra_template_vars act with
    | error e => exact ⟨[], by simp [hpa, hex]⟩
    | ok output =>
      cases hr : render_template s.config w s.extra_template_vars
          s.config.action_observation_template [("output", pyDictRepr output)] with
      | error e => exact ⟨[], by simp [hpa, hex, hr]⟩
      | ok observation =>
        exact ⟨[{ role := "user", content := observation }], by simp [hpa, hex, hr, addMessage]⟩

theorem step_frame (w : World) (s : AgentState) :
    ∃ t, (step w s).2.messages = s.messages ++ t ∧
      (step w s).2.extra_template_vars = s.extra_template_vars ∧
      (step w s).2.config = s.config := by
  obtain ⟨t1, h1, h2, h3⟩ := query_frame w s
  unfold step
  cases hq : query w s with
  | mk res s1 =>
    have e1 : s1.messages = s.messages ++ t1 := by rw [hq] at h1; exact h1
    have e2 : s1.extra_template_vars = s.extra_template_vars := by rw [hq] at h2; exact h2
    have e3 : s1.config = s.config := by rw [hq] at h3; exact h3
    cases res with
    | error e => exact ⟨t1, e1, e2, e3⟩
    | ok resp =>
      obtain ⟨t2, g1, g2, g3⟩ := get_observation_frame w s1 resp
      exact ⟨t1 ++ t2, by rw [g1, e1, List.append_assoc], by rw [g2, e2], by rw [g3, e3]⟩

theorem loopStep_frame (w : World) (s : AgentState) :
    ∃ t, (stateOfLoopRes (loopStep w s)).messages = s.messages ++ t ∧
      (stateOfLoopRes (loopStep w s)).extra_template_vars = s.extra_template_vars ∧
      (stateOfLoopRes (loopStep w s)).config = s.config := by
  obtain ⟨t1, h1, h2, h3⟩ := step_frame w s
  unfold loopStep
  cases hs : step w s with
  | mk res s1 =>
    have e1 : s1.messages = s.messages ++ t1 := by rw [hs] at h1; exact h1
    have e2 : s1.extra_template_vars = s.extra_template_vars := by rw [hs] at h2; exact h2
    have e3 : s1.config = s.config := by rw [hs] at h3; exact h3
    cases res with
    | ok o => exact ⟨t1, e1, e2, e3⟩
    | error e =>
      cases e with
      | formatError m =>
        exact ⟨t1 ++ [{ role := "user", content := m }],
          by simp [stateOfLoopRes, addMessage, e1], by simp [stateOfLoopRes, addMessage, e2],
          by simp [stateOfLoopRes, addMessage, e3]⟩
      | executionTimeout m =>
        exact ⟨t1 ++ [{ role := "user", content := m }],
          by simp [stateOfLoopRes, addMessage, e1], by simp [stateOfLoopRes, addMessage, e2],
          by simp [stateOfLoopRes, addMessage, e3]⟩
      | submitted m =>
        exact ⟨t1 ++ [{ role := "user", content := m }],
          by simp [stateOfLoopRes, addMessage, e1], by simp [stateOfLoopRes, addMessage, e2],
          by simp [stateOfLoopRes, addMessage, e3]⟩
      | limitsExceeded =>
        exact ⟨t1 ++ [{ role := "user", content := "" }],
          by simp [stateOfLoopRes, addMessage, e1], by simp [stateOfLoopRes, addMessage, e2],
          by simp [stateOfLoopRes, addMessage, e3]⟩
      | renderError e => exact ⟨t1, e1, e2, e3⟩

theorem runLoop_frame (w : World) :
    ∀ (n : Nat) (s : AgentState),
      ∃ t, (stateOfRunRes (runLoop w n s)).messages = s.messages ++ t ∧
        (stateOfRunRes (runLoop w n s)).extra_template_vars = s.extra_template_vars ∧
        (stateOfRunRes (runLoop w n s)).config = s.config := by
  intro n
  induction n with
  | zero => intro s; exact ⟨[], by simp [runLoop, stateOfRunRes]⟩
  | succ m ih =>
    intro s
    obtain ⟨t1, h1, h2, h3⟩ := loopStep_frame w s
    unfold runLoop
    cases hl : loopStep w s with
    | next s1 =>
      rw [hl] at h1 h2 h3
      simp only [stateOfLoopRes] at h1 h2 h3
      obtain ⟨t2, g1, g2, g3⟩ := ih s1
      exact ⟨t1 ++ t2, by rw [g1, h1, List.append_assoc], by rw [g2, h2], by rw [g3, h3]⟩
    | done st m s1 =>
      rw [hl] at h1 h2 h3
      simp only [stateOfLoopRes] at h1 h2 h3
      exact ⟨t1, h1, h2, h3⟩
    | crash e s1 =>
      rw [hl] at h1 h2 h3
      simp only [stateOfLoopRes] at h1 h2 h3
      exact ⟨t1, h1, h2, h3⟩

theorem runInit_shape (w : World) (s : AgentState) (task : String) (kwargs : Dict)
    (s0 : AgentState) (h : runInit w s task kwargs = .ok s0) :
    (∃ m1 m2, s0.messages =
      [{ role := "system", content := m1 }, { role := "user", content := m2 }]) ∧
    s0.extra_template_vars = dunion s.extra_template_vars (dunion [("task", task)] kwargs) ∧
    s0.config = s.config := by
  unfold runInit at h
  dsimp only at h
  split at h
  · exact absurd h (by simp)
  · split at h
    · exact absurd h (by simp)
    · injection h with h
      subst h
      rename_i sysMsg heq1 xx instMsg heq2
      exact ⟨⟨sysMsg, instMsg, by simp [addMessage]⟩, rfl, rfl⟩

/-! Claim theorems. -/

/-- C2 (amended): `query` raises `LimitsExceeded` exactly when a positive step
limit is at most the call count or a positive cost limit is at most the
accumulated cost; when it raises, the agent state is returned unchanged — no
model call is issued and no assistant message is appended. -/
theorem query_limits_spec (w : World) (s : AgentState) :
    ((query w s).1 = .error .limitsExceeded ↔
      (0 < s.config.step_limit ∧ s.config.step_limit ≤ (s.model.n_calls : Int)) ∨
      (0 < s.config.cost_limit ∧ s.config.cost_limit ≤ s.model.cost)) ∧
    ((query w s).1 = .error .limitsExceeded → (query w s).2 = s) := by
  by_cases hc : ((0 < s.config.step_limit ∧ s.config.step_limit ≤ (s.model.n_calls : Int)) ∨
      (0 < s.config.cost_limit ∧ s.config.cost_limit ≤ s.model.cost))
  · simp [query, hc]
  · simp [query, hc]

/-- C2 witness: with step limit 5 the 6th query attempt raises (call count 5)
and the agent state is unchanged; once cost 3 reaches cost limit 3 the next
query raises; with call count 4 the 5th attempt does not raise. -/
theorem query_limits_spec_app :
    (query wTest s5).1 = .error .limitsExceeded ∧ (query wTest s5).2 = s5 ∧
    (query wTest sCost).1 = .error .limitsExceeded ∧
    (query wTest s4).1 = .ok { content := "r" } := by
  have h5 := query_limits_spec wTest s5
  have hraise : (query wTest s5).1 = .error .limitsExceeded :=
    h5.1.mpr (Or.inl (by decide))
  exact ⟨hraise, h5.2 hraise,
    (query_limits_spec wTest sCost).1.mpr (Or.inr (by norm_num [sCost, cfg0])), rfl⟩

/-- C2 counterexample to the claim as stated: a nonzero (negative) step limit
of -1 is met by call count 0, yet `query` does not raise. -/
theorem query_nonzero_negative_limit_cex :
    sNeg.config.step_limit ≠ 0 ∧ sNeg.config.step_limit ≤ (sNeg.model.n_calls : Int) ∧
    (query wTest sNeg).1 = .ok { content := "r" } :=
  ⟨by decide, by decide, rfl⟩

/-- C5: the view sent to the model is the full log when the truncation size is
0 or the log has fewer than 3 entries; with a positive truncation size N and
at least 3 entries it is the first 2 entries followed by a suffix of the
remainder of length `min N (length - 2)` (the last N entries of the
remainder). -/
theorem viewForModel_spec (cfg : AgentConfig) (msgs : List Message) :
    ((cfg.max_history_messages = 0 ∨ msgs.length < 3) → viewForModel cfg msgs = msgs) ∧
    (0 < cfg.max_history_messages → 3 ≤ msgs.length →
      ∃ t, viewForModel cfg msgs = msgs.take 2 ++ t ∧
        (∃ pre, pre ++ t = msgs.drop 2) ∧
        t.length = min cfg.max_history_messages.toNat (msgs.length - 2)) := by
  constructor
  · intro h
    have hc : ¬(0 < cfg.max_history_messages ∧ 2 < msgs.length) := by
      rintro ⟨h1, h2⟩
      rcases h with h3 | h3 <;> omega
    simp [viewForModel, hc]
  · intro h1 h2
    have hc : (0 < cfg.max_history_messages ∧ 2 < msgs.length) := ⟨h1, by omega⟩
    refine ⟨(msgs.drop 2).drop ((msgs.drop 2).length - cfg.max_history_messages.toNat),
      by simp [viewForModel, hc],
      ⟨(msgs.drop 2).take ((msgs.drop 2).length - cfg.max_history_messages.toNat),
        List.take_append_drop _ _⟩, ?_⟩
    rw [List.length_drop, List.length_drop]
    have ht : 0 < cfg.max_history_messages.toNat := by omega
    omega

/-- C5 witness: with truncation size 2 and the 7-entry log, the view is the
first two entries plus the last two of the remainder — 4 entries. -/
theorem viewForModel_spec_app :
    (∃ t, viewForModel cfgN2 msgs7 = msgs7.take 2 ++ t ∧
      (∃ pre, pre ++ t = msgs7.drop 2) ∧
      t.length = min cfgN2.max_history_messages.toNat (msgs7.length - 2)) ∧
    viewForModel cfgN2 msgs7 =
      [{ role := "system", content := "s" }, { role := "user", content := "u" },
       { role := "user", content := "u2" }, { role := "assistant", content := "a3" }] ∧
    (viewForModel cfgN2 msgs7).length = 4 :=
  ⟨(viewForModel_spec cfgN2 msgs7).2 (by decide) (by decide), rfl, rfl⟩

/-- C6: with validation disabled, a sentinel first line of the lstripped
output raises `Submitted` with exactly the remaining lines (terminators
preserved) joined as the message; a non-sentinel or absent first line raises
nothing. -/
theorem has_finished_no_validation_spec (cfg : AgentConfig) (output : Dict)
    (hval : cfg.validate_source_changes = false) :
    (∀ first rest, pySplitlinesKeep (pyLstripWs (dgetD output "output" "")) = first :: rest →
      (sentinels.contains (pyStrip first) = true →
        has_finished cfg output = .error (.submitted (String.join rest))) ∧
      (sentinels.contains (pyStrip first) = false → has_finished cfg output = .ok ())) ∧
    (pySplitlinesKeep (pyLstripWs (dgetD output "output" "")) = [] →
      has_finished cfg output = .ok ()) := by
  constructor
  · intro first rest hl
    constructor
    · intro hs
      have hs' : pyStrip first ∈ sentinels := by simpa using hs
      simp [has_finished, hl, hs', hval]
    · intro hs
      have hs' : ¬(pyStrip first ∈ sentinels) := by simpa using hs
      simp [has_finished, hl, hs']
  · intro hl
    simp [has_finished, hl]

/-- C6 witness: the output "MINI_SWE_AGENT_FINAL_OUTPUT\nhello world\n" raises
`Submitted "hello world\n"`, and a sentinel-free output raises nothing. -/
theorem has_finished_no_validation_spec_app :
    has_finished cfg0 out6 = .error (.submitted "hello world\n") ∧
    has_finished cfg0 outNone = .ok () := by
  refine ⟨?_, rfl⟩
  exact (((has_finished_no_validation_spec cfg0 out6 rfl).1
    "MINI_SWE_AGENT_FINAL_OUTPUT\n" ["hello world\n"] (by decide)).1 (by decide))

/-- C4: evaluating the path collection of `_has_source_file_changes` on a
header whose third field is "a/abc.py" yields "c.py" (every leading 'a', 'b',
'/' character is removed, not one "a/" prefix), and a "--- /dev/null" line
contributes the candidate "dev/null" instead of being ignored. -/
theorem collectPaths_lstrip_eval :
    collectPaths "diff --git a/abc.py b/abc.py\n--- /dev/null" = ["c.py", "dev/null"] ∧
    stripAB "a/abc.py" = "c.py" ∧ stripAB "/dev/null" = "dev/null" :=
  ⟨by decide, by decide, by decide⟩

/-- C8: rendering with strict-undefined semantics fails with a
missing-variable error whenever the template references a name absent from
the variable map, whatever other variables are supplied. -/
theorem render_strict_undefined :
    ∀ (t : Tmpl) (v : Dict) (n : String), Tpart.var n ∈ t → dget v n = none →
      ∃ m, render t v = .error m ∧ dget v m = none := by
  intro t
  induction t with
  | nil =>
    intro v n h
    simp at h
  | cons p rest ih =>
    intro v n hmem hnone
    cases p with
    | lit s =>
      have hmem' : Tpart.var n ∈ rest := by
        rcases List.mem_cons.mp hmem with h | h
        · exact absurd h (by simp)
        · exact h
      obtain ⟨m, hm, hm2⟩ := ih v n hmem' hnone
      exact ⟨m, by simp [render, hm, Except.map], hm2⟩
    | var k =>
      cases hk : dget v k with
      | none => exact ⟨k, by simp [render, hk], hk⟩
      | some val =>
        have hne : Tpart.var n ≠ Tpart.var k := by
          intro hcon
          injection hcon with hcon
          rw [hcon] at hnone
          rw [hnone] at hk
          cases hk
        have hmem' : Tpart.var n ∈ rest := by
          rcases List.mem_cons.mp hmem with h | h
          · exact absurd h hne
          · exact h
        obtain ⟨m, hm, hm2⟩ := ih v n hmem' hnone
        exact ⟨m, by simp [render, hk, hm, Except.map], hm2⟩

/-- C8 witness: a template referencing "missing" fails to render against a map
holding only "present". -/
theorem render_strict_undefined_app :
    ∃ m, render [Tpart.lit "a", Tpart.var "missing"] [("present", "1")] = .error m ∧
      dget [("present", "1")] m = none :=
  render_strict_undefined [Tpart.lit "a", Tpart.var "missing"] [("present", "1")]
    "missing" (by decide) (by decide)

/-- C1: when the configured action regex yields exactly one match on the
response text, `parse_action` returns that match stripped, paired with the
full response; with zero or several matches it returns a `FormatError`
carrying the rendered format-error template over the match list, never an
action; and the run loop turns a `FormatError` into an appended user message
and continues. -/
theorem parse_action_spec (w : World) (cfg : AgentConfig) (extra : Dict) (resp : Response) :
    (∀ a, w.findall resp.content = [a] →
      parse_action w cfg extra resp = .ok { action := pyStrip a, response := resp }) ∧
    ((w.findall resp.content).length ≠ 1 →
      (∀ pa, parse_action w cfg extra resp ≠ .ok pa) ∧
      (∀ msg, render_template cfg w extra cfg.format_error_template
          [("actions", pyReprStrList (w.findall resp.content))] = .ok msg →
        parse_action w cfg extra resp = .error (.formatError msg))) ∧
    (∀ s m s1, step w s = (.error (.formatError m), s1) →
      loopStep w s = .next (addMessage s1 "user" m)) := by
  refine ⟨?_, ?_, ?_⟩
  · intro a ha
    simp [parse_action, ha]
  · intro hlen
    cases hf : w.findall resp.content with
    | nil =>
      constructor
      · intro pa
        cases hr : render_template cfg w extra cfg.format_error_template
            [("actions", pyReprStrList ([] : List String))] with
        | ok m => simp [parse_action, hf, hr]
        | error e => simp [parse_action, hf, hr]
      · intro msg hmsg
        simp [parse_action, hf, hmsg]
    | cons a tl =>
      cases tl with
      | nil =>
        rw [hf] at hlen
        simp at hlen
      | cons b tl2 =>
        constructor
        · intro pa
          cases hr : render_template cfg w extra cfg.format_error_template
              [("actions", pyReprStrList (a :: b :: tl2))] with
          | ok m => simp [parse_action, hf, hr]
          | error e => simp [parse_action, hf, hr]
        · intro msg hmsg
          simp [parse_action, hf, hmsg]
  · intro s m s1 hstep
    simp [loopStep, hstep]

/-- C1 witness: one match "  echo hi  " parses to the stripped action
"echo hi"; zero matches give `FormatError "bad []"` (the rendered template)
and the loop appends it as a user message and continues. -/
theorem parse_action_spec_app :
    parse_action wOne cfg0 [] respX = .ok { action := "echo hi", response := respX } ∧
    parse_action wTest cfgFmt [] { content := "r" } = .error (.formatError "bad []") ∧
    loopStep wTest sZero = .next (addMessage s1Zero "user" "bad []") := by
  refine ⟨(parse_action_spec wOne cfg0 [] respX).1 "  echo hi  " rfl, ?_, ?_⟩
  · exact ((parse_action_spec wTest cfgFmt [] { content := "r" }).2.1 (by decide)).2
      "bad []" rfl
  · exact (parse_action_spec wTest cfgFmt [] { content := "r" }).2.2 sZero "bad []" s1Zero rfl

/-- C3 (amended): with validation enabled and a sentinel first line,
`Submitted` is raised iff some collected path matches a configured pattern or
— the suffix fallback being evaluated once per configured pattern — ends with
".py"; otherwise the rejection `FormatError` listing the configured patterns
is raised. -/
theorem has_finished_validation_spec (cfg : AgentConfig) (output : Dict) (first : String)
    (rest : List String)
    (hval : cfg.validate_source_changes = true)
    (hl : pySplitlinesKeep (pyLstripWs (dgetD output "output" "")) = first :: rest)
    (hs : sentinels.contains (pyStrip first) = true) :
    (has_finished cfg output = .error (.submitted (String.join rest)) ↔
      ∃ fp ∈ collectPaths (String.join rest), ∃ pat ∈ cfg.source_path_patterns,
        (fnmatch fp pat = true ∨ pyEndswith fp ".py" = true)) ∧
    (has_finished cfg output = .error (.formatError (rejectionMsg cfg)) ↔
      ¬∃ fp ∈ collectPaths (String.join rest), ∃ pat ∈ cfg.source_path_patterns,
        (fnmatch fp pat = true ∨ pyEndswith fp ".py" = true)) := by
  have hs' : pyStrip first ∈ sentinels := by simpa using hs
  have hiff : _has_source_file_changes cfg (String.join rest) = true ↔
      ∃ fp ∈ collectPaths (String.join rest), ∃ pat ∈ cfg.source_path_patterns,
        (fnmatch fp pat = true ∨ pyEndswith fp ".py" = true) := by
    simp [_has_source_file_changes, List.any_eq_true]
  cases h : _has_source_file_changes cfg (String.join rest) with
  | true =>
    have he : has_finished cfg output = .error (.submitted (String.join rest)) := by
      simp [has_finished, hl, hs', hval, h]
    constructor
    · exact ⟨fun _ => hiff.mp h, fun _ => he⟩
    · constructor
      · intro hc
        rw [he] at hc
        simp at hc
      · intro hne
        exact absurd (hiff.mp h) hne
  | false =>
    have he : has_finished cfg output = .error (.formatError (rejectionMsg cfg)) := by
      simp [has_finished, hl, hs', hval, h]
    have hnot : ¬∃ fp ∈ collectPaths (String.join rest), ∃ pat ∈ cfg.source_path_patterns,
        (fnmatch fp pat = true ∨ pyEndswith fp ".py" = true) := by
      intro hex
      have hcon := hiff.mpr hex
      rw [h] at hcon
      simp at hcon
    constructor
    · constructor
      · intro hc
        rw [he] at hc
        simp at hc
      · intro hex
        exact absurd (hiff.mpr hex) (by simp [h])
    · exact ⟨fun _ => hnot, fun _ => he⟩

/-- C3 witness: with the default patterns, the submission touching
src/pkg/mod.py is accepted (`Submitted`) and the README-only submission is
rejected (`FormatError` listing the patterns). -/
theorem has_finished_validation_spec_app :
    has_finished cfgV outAcc =
      .error (.submitted "diff --git a/src/pkg/mod.py b/src/pkg/mod.py\n") ∧
    has_finished cfgV outRej = .error (.formatError (rejectionMsg cfgV)) := by
  constructor
  · exact (has_finished_validation_spec cfgV outAcc "MINI_SWE_AGENT_FINAL_OUTPUT\n"
      ["diff --git a/src/pkg/mod.py b/src/pkg/mod.py\n"] rfl (by decide) (by decide)).1.mpr
      ⟨"src/pkg/mod.py", by decide, "*.py", by decide, Or.inr (by decide)⟩
  · rfl

/-- C3 counterexample to the claim as stated: with an empty configured
pattern list, a submission whose collected path ends with ".py" is still
rejected, because the ".py" suffix fallback is only evaluated inside the
per-pattern loop. -/
theorem has_finished_empty_patterns_cex :
    (collectPaths "diff --git a/x.py b/x.py\n").any (fun fp => pyEndswith fp ".py") = true ∧
    cfgEmptyPat.validate_source_changes = true ∧
    has_finished cfgEmptyPat outEmptyPat = .error (.formatError (rejectionMsg cfgEmptyPat)) :=
  ⟨by decide, rfl, rfl⟩

/-- C7 (amended): among the flattened configuration, the environment
variables and the model variables, dict union gives the later source
precedence; but a name supplied to the render call by more than one of the
three keyword groups (call kwargs, merged template variables, run extras)
makes rendering fail with a duplicate-keyword-argument TypeError instead of
the later source winning. -/
theorem render_template_precedence_spec (cfg : AgentConfig) (w : World)
    (extra kwargs : Dict) (tmpl : Tmpl) (k : String) :
    (dget (templateVars cfg w) k =
      oor (dget w.modelTemplateVars k)
        (oor (dget w.envTemplateVars k) (dget (configDump cfg) k))) ∧
    (hasKey kwargs k = true → hasKey (templateVars cfg w) k = true →
      ∃ k2, render_template cfg w extra tmpl kwargs = .error (.duplicateKwarg k2)) ∧
    (hasKey kwargs k = true → hasKey extra k = true →
      ∃ k2, render_template cfg w extra tmpl kwargs = .error (.duplicateKwarg k2)) ∧
    (hasKey (templateVars cfg w) k = true → hasKey extra k = true →
      ∃ k2, render_template cfg w extra tmpl kwargs = .error (.duplicateKwarg k2)) := by
  refine ⟨?_, ?_, ?_, ?_⟩
  · unfold templateVars
    rw [dget_dunion, dget_dunion]
  · intro h1 h2
    cases ha : kwargsAdd [] kwargs with
    | error e =>
      obtain ⟨k2, hk2⟩ := kwargsAdd_error_shape _ _ _ ha
      exact ⟨k2, by simp [render_template, ha, hk2]⟩
    | ok m1 =>
      have hm1 : hasKey m1 k = true := by
        have hh := kwargsAdd_ok_hasKey _ _ _ ha k
        rw [show hasKey ([] : Dict) k = false from rfl, Bool.false_or, h1] at hh
        exact hh
      obtain ⟨e, he⟩ := kwargsAdd_overlap (templateVars cfg w) m1 k hm1 h2
      obtain ⟨k2, hk2⟩ := kwargsAdd_error_shape _ _ _ he
      exact ⟨k2, by simp [render_template, ha, he, hk2]⟩
  · intro h1 h2
    cases ha : kwargsAdd [] kwargs with
    | error e =>
      obtain ⟨k2, hk2⟩ := kwargsAdd_error_shape _ _ _ ha
      exact ⟨k2, by simp [render_template, ha, hk2]⟩
    | ok m1 =>
      have hm1 : hasKey m1 k = true := by
        have hh := kwargsAdd_ok_hasKey _ _ _ ha k
        rw [show hasKey ([] : Dict) k = false from rfl, Bool.false_or, h1] at hh
        exact hh
      cases hb : kwargsAdd m1 (templateVars cfg w) with
      | error e =>
        obtain ⟨k2, hk2⟩ := kwargsAdd_error_shape _ _ _ hb
        exact ⟨k2, by simp [render_template, ha, hb, hk2]⟩
      | ok m2 =>
        have hm2 : hasKey m2 k = true := by
          have hh := kwargsAdd_ok_hasKey _ _ _ hb k
          rw [hh, hm1]
          simp
        obtain ⟨e, he⟩ := kwargsAdd_overlap extra m2 k hm2 h2
        obtain ⟨k2, hk2⟩ := kwargsAdd_error_shape _ _ _ he
        exact ⟨k2, by simp [render_template, ha, hb, he, hk2]⟩
  · intro h1 h2
    cases ha : kwargsAdd [] kwargs with
    | error e =>
      obtain ⟨k2, hk2⟩ := kwargsAdd_error_shape _ _ _ ha
      exact ⟨k2, by simp [render_template, ha, hk2]⟩
    | ok m1 =>
      cases hb : kwargsAdd m1 (templateVars cfg w) with
      | error e =>
        obtain ⟨k2, hk2⟩ := kwargsAdd_error_shape _ _ _ hb
        exact ⟨k2, by simp [render_template, ha, hb, hk2]⟩
      | ok m2 =>
        have hm2 : hasKey m2 k = true := by
          have hh := kwargsAdd_ok_hasKey _ _ _ hb k
          rw [hh, h1]
          simp
        obtain ⟨e, he⟩ := kwargsAdd_overlap extra m2 k hm2 h2
        obtain ⟨k2, hk2⟩ := kwargsAdd_error_shape _ _ _ he
        exact ⟨k2, by simp [render_template, ha, hb, he, hk2]⟩

/-- C7 witness: with "task" supplied both by the environment variables and by
the run extras, rendering raises a duplicate-keyword error; and the merged
template-variable lookup follows config < env < model precedence. -/
theorem render_template_precedence_spec_app :
    (∃ k2, render_template cfg0 wEnvTask extraTask [] [] =
      .error (.duplicateKwarg k2)) ∧
    dget (templateVars cfg0 wEnvTask) "task" =
      oor (dget wEnvTask.modelTemplateVars "task")
        (oor (dget wEnvTask.envTemplateVars "task") (dget (configDump cfg0) "task")) := by
  refine ⟨?_, (render_template_precedence_spec cfg0 wEnvTask extraTask [] [] "task").1⟩
  exact (render_template_precedence_spec cfg0 wEnvTask extraTask [] [] "task").2.2.2
    (by decide) (by decide)

/-- C7 counterexample to the claim as stated: "task" supplied by two sources
(environment variables and run extras) does not render with the later source
winning — the render call fails with a duplicate-keyword TypeError. -/
theorem render_template_duplicate_cex :
    hasKey wEnvTask.envTemplateVars "task" = true ∧ hasKey extraTask "task" = true ∧
    render_template cfg0 wEnvTask extraTask [Tpart.var "task"] [] =
      .error (.duplicateKwarg "task") :=
  ⟨rfl, rfl, rfl⟩

/-- C9: after a successful run initialisation the log is exactly one system
message followed by one user message; every loop iteration only appends to
the log; hence at every point of the run the log still starts with that
system/user prefix. -/
theorem run_log_prefix_invariant (w : World) (s : AgentState) (task : String)
    (kwargs : Dict) (s0 : AgentState) (h : runInit w s task kwargs = .ok s0) :
    (∃ m1 m2, s0.messages =
      [{ role := "system", content := m1 }, { role := "user", content := m2 }]) ∧
    (∀ s1, ∃ t, (stateOfLoopRes (loopStep w s1)).messages = s1.messages ++ t) ∧
    (∀ n, ∃ m1 m2 t, (stateOfRunRes (runLoop w n s0)).messages =
      { role := "system", content := m1 } :: { role := "user", content := m2 } :: t) := by
  obtain ⟨⟨m1, m2, hm⟩, _, _⟩ := runInit_shape w s task kwargs s0 h
  refine ⟨⟨m1, m2, hm⟩, fun s1 => ?_, fun n => ?_⟩
  · obtain ⟨t, ht, _, _⟩ := loopStep_frame w s1
    exact ⟨t, ht⟩
  · obtain ⟨t, ht, _, _⟩ := runLoop_frame w n s0
    refine ⟨m1, m2, t, ?_⟩
    rw [ht, hm]
    rfl

/-- C9 witness: the concrete initialisation produces exactly the system and
user prompts, and the prefix persists through the fuelled loop. -/
theorem run_log_prefix_invariant_app :
    (∃ m1 m2, c9Init.messages =
      [{ role := "system", content := m1 }, { role := "user", content := m2 }]) ∧
    (∀ s1, ∃ t, (stateOfLoopRes (loopStep wTest s1)).messages = s1.messages ++ t) ∧
    (∀ n, ∃ m1 m2 t, (stateOfRunRes (runLoop wTest n c9Init)).messages =
      { role := "system", content := m1 } :: { role := "user", content := m2 } :: t) :=
  run_log_prefix_invariant wTest baseState "t" [] c9Init rfl

/-- C10: a later `run` call resets the message log to the two fresh prompts
but merges rather than clears the extra template variables: a key seeded by
an earlier call and not overridden keeps its value, and no loop operation
ever changes the extra template variables. -/
theorem run_preserves_extra_vars (w : World) (s : AgentState) (task : String)
    (kwargs : Dict) (k v : String) (s0 : AgentState)
    (h : runInit w s task kwargs = .ok s0)
    (hk : dget s.extra_template_vars k = some v)
    (hnt : k ≠ "task") (hkw : hasKey kwargs k = false) :
    dget s0.extra_template_vars k = some v ∧
    (∃ m1 m2, s0.messages =
      [{ role := "system", content := m1 }, { role := "user", content := m2 }]) ∧
    (∀ s1, (stateOfLoopRes (loopStep w s1)).extra_template_vars = s1.extra_template_vars) ∧
    (∀ n s1, (stateOfRunRes (runLoop w n s1)).extra_template_vars =
      s1.extra_template_vars) := by
  obtain ⟨hshape, hextra, _⟩ := runInit_shape w s task kwargs s0 h
  refine ⟨?_, hshape, fun s1 => ?_, fun n s1 => ?_⟩
  · rw [hextra, dget_dunion, dget_dunion]
    have h1 : dget kwargs k = none := by
      cases hd : dget kwargs k with
      | none => rfl
      | some x =>
        unfold hasKey at hkw
        rw [hd] at hkw
        simp at hkw
    have h2 : dget [("task", task)] k = none := by
      have hb : ("task" == k) = false := beq_eq_false_iff_ne.mpr (Ne.symm hnt)
      simp [dget, hb]
    rw [h1, h2, hk]
    rfl
  · obtain ⟨t, _, he, _⟩ := loopStep_frame w s1
    exact he
  · obtain ⟨t, _, he, _⟩ := runLoop_frame w n s1
    exact he

/-- C10 witness: the "keep" extra seeded by the earlier run survives the new
`runInit` with task "t1" and extra "other", while the log is reset to the two
fresh prompts. -/
theorem run_preserves_extra_vars_app :
    dget c10State.extra_template_vars "keep" = some "old" ∧
    (∃ m1 m2, c10State.messages =
      [{ role := "system", content := m1 }, { role := "user", content := m2 }]) ∧
    (∀ s1, (stateOfLoopRes (loopStep wTest s1)).extra_template_vars =
      s1.extra_template_vars) ∧
    (∀ n s1, (stateOfRunRes (runLoop wTest n s1)).extra_template_vars =
      s1.extra_template_vars) :=
  run_preserves_extra_vars wTest baseState2 "t1" [("other", "x")] "keep" "old" c10State
    rfl rfl (by decide) rfl

end MiniSwe
